import Mathlib

/-!
Verification of the Structural Reference Adjustment Engine of the
excelize spreadsheet library: coordinate model, axis interval adjuster,
merge-region / auto-filter / table / calculation-chain adjusters and the
adjustment orchestrator, with the properties stated against this model.
The adjuster implementations are absent from the available source (only
their tests are present), so every operational definition below is
modelled from the specification, checked against the expectations of the
test file.
-/

namespace Excelize

/-- Direction of a structural adjustment: the row axis or the column axis. -/
inductive AdjustDirection where
  | rows
  | columns
deriving DecidableEq, Repr

/-- Errors surfaced by the adjustment engine: an unparsable cell/range
reference (carrying the offending text) or an unresolvable sheet name. -/
inductive AdjustError where
  | invalidCellReference (text : String)
  | sheetNotFound (name : String)
deriving DecidableEq, Repr

/-- A rectangle `{x1, y1, x2, y2}`, all 1-based inclusive; `x` is the
column axis and `y` the row axis. -/
structure Rect where
  x1 : Int
  y1 : Int
  x2 : Int
  y2 : Int
deriving DecidableEq, Repr

/-- Is `c` an upper-case column letter? -/
def isColLetter (c : Char) : Bool := 'A' ≤ c && c ≤ 'Z'

/-- Is `c` a decimal digit? -/
def isDigitCh (c : Char) : Bool := '0' ≤ c && c ≤ '9'

/-- Value of a column-letter run, bijective base 26 ("A" = 1, "AA" = 27). -/
def lettersVal (l : List Char) : Nat :=
  l.foldl (fun acc c => acc * 26 + (c.toNat - 64)) 0

/-- Value of a digit run, base 10. -/
def digitsVal (l : List Char) : Nat :=
  l.foldl (fun acc c => acc * 10 + (c.toNat - 48)) 0

/-- Modelled from the spec: the cell-reference parser (`CellNameToCoordinates`,
absent from the available source). Fails when the string has no column
letters, no row digits, trailing garbage, a row of zero, or a column/row
exceeding the format limits (16384 columns, 1048576 rows). -/
def parseCellName (s : String) : Option (Int × Int) :=
  let cs := s.toList
  let letters := cs.takeWhile isColLetter
  let rest := cs.dropWhile isColLetter
  if letters.isEmpty then none
  else if rest.isEmpty then none
  else if !(rest.all isDigitCh) then none
  else
    let col := lettersVal letters
    let row := digitsVal rest
    if row = 0 then none
    else if col > 16384 then none
    else if row > 1048576 then none
    else some ((col : Int), (row : Int))

/-- Split a character list on a separator character. -/
def splitOnCharAux (sep : Char) : List Char → List Char → List (List Char)
  | [], acc => [acc.reverse]
  | c :: rest, acc =>
    if c = sep then acc.reverse :: splitOnCharAux sep rest []
    else splitOnCharAux sep rest (c :: acc)

/-- Split a string on ':' (the separator of range references). -/
def splitOnColon (s : String) : List String :=
  (splitOnCharAux ':' s.toList []).map String.mk

/-- Modelled from the spec: parse the two halves of a range reference,
propagating the unparsable half's text in the error, and normalize by
taking the per-axis min/max of the two corner coordinates. -/
def parseRangeHalves (a b : String) : Except AdjustError Rect :=
  match parseCellName a with
  | none => .error (.invalidCellReference a)
  | some (c1, r1) =>
    match parseCellName b with
    | none => .error (.invalidCellReference b)
    | some (c2, r2) => .ok ⟨min c1 c2, min r1 r2, max c1 c2, max r1 r2⟩

/-- Modelled from the spec: the range-reference parser (`rangeRefToCoordinates`,
absent from the available source): split on ':' and parse the two halves. -/
def rangeRefToCoordinates (ref : String) : Except AdjustError Rect :=
  match splitOnColon ref with
  | [a, b] => parseRangeHalves a b
  | _ => .error (.invalidCellReference ref)

/-- Fuel-bounded bijective base-26 rendering of a positive column number. -/
def colNameAux : Nat → Nat → String
  | 0, _ => ""
  | _ + 1, 0 => ""
  | fuel + 1, m + 1 => colNameAux fuel (m / 26) ++ String.mk [Char.ofNat (65 + m % 26)]

/-- Column number to column name ("A", "B", …, "AA", …). -/
def columnNumberToName (n : Int) : String := colNameAux 8 n.toNat

/-- Render a (column, row) pair as a cell name such as "B3". -/
def cellNameOf (col row : Int) : String := columnNumberToName col ++ toString row

/-- Modelled from the spec: format a rect as a two-corner range reference
("A2:B3"), the form merge regions must always use. -/
def coordinatesToRangeRef (r : Rect) : String :=
  cellNameOf r.x1 r.y1 ++ ":" ++ cellNameOf r.x2 r.y2

/-- Modelled from the spec: format a rect for filter/table strings:
single-cell ranges collapse to a lone cell reference. -/
def coordinatesToFilterRef (r : Rect) : String :=
  if r.x1 = r.x2 ∧ r.y1 = r.y2 then cellNameOf r.x1 r.y1
  else coordinatesToRangeRef r

/-- Modelled from the spec: the single-axis interval adjuster. Given
interval bounds, a pivot and a signed offset (`+k` insert, `-k` delete),
produce the new bounds per the explicit branch table: inserting at
`pivot ≤ start` shifts both bounds; inserting at `start < pivot ≤ end`
grows the end; deleting at `pivot < start` shifts both bounds; deleting
at `start ≤ pivot ≤ end` shrinks the end; a pivot past the end changes
nothing. Collapse (`newEnd < newStart`) is detected by the caller. -/
def adjustAxis (s e num offset : Int) : Int × Int :=
  if 0 < offset then
    if num ≤ s then (s + offset, e + offset)
    else if num ≤ e then (s, e + offset)
    else (s, e)
  else if offset < 0 then
    if num < s then (s + offset, e + offset)
    else if num ≤ e then (s, e + offset)
    else (s, e)
  else (s, e)

/-- Modelled from the spec: the merge pair-adjustment helper
(`adjustMergeCellsHelper`, absent from the available source): reorder the
two bounds into (min, max) order, then apply the axis adjuster. -/
def adjustMergeCellsHelper (p1 p2 num offset : Int) : Int × Int :=
  adjustAxis (min p1 p2) (max p1 p2) num offset

/-- Apply the axis adjuster to exactly one axis of a rect, the one
matching the requested direction. -/
def adjustRect (r : Rect) (dir : AdjustDirection) (num offset : Int) : Rect :=
  match dir with
  | .rows =>
    let p := adjustAxis r.y1 r.y2 num offset
    ⟨r.x1, p.1, r.x2, p.2⟩
  | .columns =>
    let p := adjustAxis r.x1 r.x2 num offset
    ⟨p.1, r.y1, p.2, r.y2⟩

/-- A rect is collapsed when its end precedes its start on some axis. -/
def Rect.isCollapsed (r : Rect) : Bool := r.x2 < r.x1 || r.y2 < r.y1

/-- A merged-cell region: its textual reference plus the cached rect. -/
structure MergeCell where
  ref : String
  rect : Option Rect
deriving DecidableEq, Repr

/-- A worksheet row carrying its 1-based number and the hidden flag. -/
structure Row where
  r : Int
  hidden : Bool
deriving DecidableEq, Repr

/-- The worksheet record: row data, the optional auto-filter reference,
the optional merged-cell list, the paths of the table parts associated
with the sheet, and the sheet's index used by the calculation chain. -/
structure Worksheet where
  sheetData : List Row
  autoFilter : Option String
  mergeCells : Option (List MergeCell)
  tablePaths : List String
  sheetID : Int
deriving DecidableEq, Repr

/-- A package part holding a table definition: either bytes that cannot
be decoded under any supported charset, or a decoded table with its
range-reference attribute. -/
inductive PkgPart where
  | undecodable
  | tablePart (ref : String)
deriving DecidableEq, Repr

/-- One calculation-chain entry: a cell reference and a sheet index. -/
structure CalcChainEntry where
  r : String
  i : Int
deriving DecidableEq, Repr

/-- The document: the sheet-name registry, the package store of table
parts, and the optional calculation chain. -/
structure File where
  sheets : List (String × Worksheet)
  pkg : List (String × PkgPart)
  calcChain : Option (List CalcChainEntry)
deriving DecidableEq, Repr

/-- Parse a merge region's stored reference, accepting a lone cell
reference as the degenerate 1×1 range. -/
def mergeCellRect (c : MergeCell) : Except AdjustError Rect :=
  match splitOnColon c.ref with
  | [a] => parseRangeHalves a a
  | [a, b] => parseRangeHalves a b
  | _ => .error (.invalidCellReference c.ref)

/-- Modelled from the spec: adjust one merge region (`adjustMergeCells`
body, absent from the available source): parse its reference, adjust the
axis matching the direction, prune on collapse (`none`), otherwise
reformat the textual reference and recache the rect. -/
def adjustOneMergeCell (c : MergeCell) (dir : AdjustDirection) (num offset : Int) :
    Except AdjustError (Option MergeCell) :=
  match mergeCellRect c with
  | .error e => .error e
  | .ok r =>
    let r' := adjustRect r dir num offset
    if r'.isCollapsed then .ok none
    else .ok (some { ref := coordinatesToRangeRef r', rect := some r' })

/-- Walk the merge-region list in order: the first parse failure stops
the walk (regions from that point on keep their old state, earlier ones
stay rewritten), collapsed regions are dropped, survivors are rewritten
in place. -/
def adjustMergeCellList (dir : AdjustDirection) (num offset : Int) :
    List MergeCell → List MergeCell × Option AdjustError
  | [] => ([], none)
  | c :: rest =>
    match adjustOneMergeCell c dir num offset with
    | .error e => (c :: rest, some e)
    | .ok none => adjustMergeCellList dir num offset rest
    | .ok (some c') =>
      let p := adjustMergeCellList dir num offset rest
      (c' :: p.1, p.2)

/-- Modelled from the spec: the merge-region adjuster (`adjustMergeCells`,
absent from the available source). An absent merge list is a no-op. -/
def adjustMergeCells (ws : Worksheet) (dir : AdjustDirection) (num offset : Int) :
    Worksheet × Option AdjustError :=
  match ws.mergeCells with
  | none => (ws, none)
  | some cells =>
    let p := adjustMergeCellList dir num offset cells
    ({ ws with mergeCells := some p.1 }, p.2)

/-- Modelled from the spec: the auto-filter adjuster (`adjustAutoFilter`,
absent from the available source): absence is a no-op, a parse failure is
hard, a collapsed range removes the filter, otherwise only the filter's
range boundaries are relocated — row hidden flags are never touched. -/
def adjustAutoFilter (ws : Worksheet) (dir : AdjustDirection) (num offset : Int) :
    Worksheet × Option AdjustError :=
  match ws.autoFilter with
  | none => (ws, none)
  | some ref =>
    match rangeRefToCoordinates ref with
    | .error e => (ws, some e)
    | .ok r =>
      let r' := adjustRect r dir num offset
      if r'.isCollapsed then ({ ws with autoFilter := none }, none)
      else ({ ws with autoFilter := some (coordinatesToFilterRef r') }, none)

/-- First part stored under `path`, if any. -/
def lookupPart (pkg : List (String × PkgPart)) (path : String) : Option PkgPart :=
  match pkg with
  | [] => none
  | (p, v) :: rest => if p = path then some v else lookupPart rest path

/-- Replace every entry keyed `path` with the given part. -/
def storePart (pkg : List (String × PkgPart)) (path : String) (part : PkgPart) :
    List (String × PkgPart) :=
  pkg.map (fun q => (q.1, if q.1 = path then part else q.2))

/-- Clamp a collapsed axis back to `start == end` (tables are never
deleted by the engine; a collapsed table range is written back clamped). -/
def clampRect (r : Rect) : Rect :=
  ⟨r.x1, r.y1, if r.x2 < r.x1 then r.x1 else r.x2, if r.y2 < r.y1 then r.y1 else r.y2⟩

/-- Modelled from the spec: adjust one table part (`adjustTable` body,
absent from the available source). A missing part, an undecodable part
and an unparsable range reference are all skipped silently; otherwise the
adjusted (collapse-clamped) reference is written back into the store. -/
def adjustSingleTable (pkg : List (String × PkgPart)) (path : String)
    (dir : AdjustDirection) (num offset : Int) : List (String × PkgPart) :=
  match lookupPart pkg path with
  | none => pkg
  | some .undecodable => pkg
  | some (.tablePart ref) =>
    match rangeRefToCoordinates ref with
    | .error _ => pkg
    | .ok r =>
      let r' := clampRect (adjustRect r dir num offset)
      storePart pkg path (.tablePart (coordinatesToFilterRef r'))

/-- Modelled from the spec: the table adjuster (`adjustTable`, absent
from the available source): process every table part associated with the
worksheet; never fails. -/
def adjustTable (pkg : List (String × PkgPart)) (paths : List String)
    (dir : AdjustDirection) (num offset : Int) : List (String × PkgPart) :=
  match paths with
  | [] => pkg
  | path :: rest => adjustTable (adjustSingleTable pkg path dir num offset) rest dir num offset

/-- Modelled from the spec: adjust one calculation-chain entry
(`adjustCalcChain` body, absent from the available source): entries on
other sheets pass through; an unparsable reference is a hard error; the
affected coordinate shifts by the offset when it is ≥ the pivot. -/
def adjustCalcChainEntry (e : CalcChainEntry) (dir : AdjustDirection)
    (num offset sheetID : Int) : Except AdjustError CalcChainEntry :=
  if e.i ≠ sheetID then .ok e
  else
    match parseCellName e.r with
    | none => .error (.invalidCellReference e.r)
    | some (col, row) =>
      match dir with
      | .rows =>
        let row' := if num ≤ row then row + offset else row
        .ok { r := cellNameOf col row', i := e.i }
      | .columns =>
        let col' := if num ≤ col then col + offset else col
        .ok { r := cellNameOf col' row, i := e.i }

/-- Walk the chain in order; the first parse failure stops the walk,
earlier entries stay rewritten. -/
def adjustCalcChainList (dir : AdjustDirection) (num offset sheetID : Int) :
    List CalcChainEntry → List CalcChainEntry × Option AdjustError
  | [] => ([], none)
  | e :: rest =>
    match adjustCalcChainEntry e dir num offset sheetID with
    | .error err => (e :: rest, some err)
    | .ok e' =>
      let p := adjustCalcChainList dir num offset sheetID rest
      (e' :: p.1, p.2)

/-- Drop entries whose (reference, sheet-index) pair was already seen,
keeping the first occurrence. -/
def dedupeCalcChainAux (seen : List (String × Int)) :
    List CalcChainEntry → List CalcChainEntry
  | [] => []
  | e :: rest =>
    if (e.r, e.i) ∈ seen then dedupeCalcChainAux seen rest
    else e :: dedupeCalcChainAux ((e.r, e.i) :: seen) rest

/-- Modelled from the spec: the calculation-chain adjuster
(`adjustCalcChain`, absent from the available source): an absent chain is
a no-op, a parse failure is hard, and on success entries now pointing at
an identical (reference, sheet-index) pair are deduplicated keeping the
first occurrence. -/
def adjustCalcChain (chain : Option (List CalcChainEntry)) (dir : AdjustDirection)
    (num offset sheetID : Int) : Option (List CalcChainEntry) × Option AdjustError :=
  match chain with
  | none => (none, none)
  | some entries =>
    let p := adjustCalcChainList dir num offset sheetID entries
    match p.2 with
    | some e => (some p.1, some e)
    | none => (some (dedupeCalcChainAux [] p.1), none)

/-- First worksheet registered under `name`, if any. -/
def lookupSheet (sheets : List (String × Worksheet)) (name : String) : Option Worksheet :=
  match sheets with
  | [] => none
  | (n, ws) :: rest => if n = name then some ws else lookupSheet rest name

/-- Replace every registry entry keyed `name` with the given worksheet. -/
def updateSheet (sheets : List (String × Worksheet)) (name : String) (ws : Worksheet) :
    List (String × Worksheet) :=
  sheets.map (fun q => if q.1 = name then (q.1, ws) else q)

/-- Modelled from the spec: the adjustment orchestrator (`adjustHelper`,
absent from the available source): resolve the sheet name (failing with
`sheetNotFound` and no mutation), then run merge → auto-filter → table →
calc-chain in that fixed order, abort at the first hard error, and keep
the mutations of the stages already run (no rollback). -/
def adjustHelper (f : File) (sheetName : String) (dir : AdjustDirection)
    (num offset : Int) : File × Option AdjustError :=
  match lookupSheet f.sheets sheetName with
  | none => (f, some (.sheetNotFound sheetName))
  | some ws =>
    let m := adjustMergeCells ws dir num offset
    match m.2 with
    | some e => ({ f with sheets := updateSheet f.sheets sheetName m.1 }, some e)
    | none =>
      let a := adjustAutoFilter m.1 dir num offset
      match a.2 with
      | some e => ({ f with sheets := updateSheet f.sheets sheetName a.1 }, some e)
      | none =>
        let pkg' := adjustTable f.pkg a.1.tablePaths dir num offset
        let c := adjustCalcChain f.calcChain dir num offset a.1.sheetID
        ({ f with sheets := updateSheet f.sheets sheetName a.1,
                  pkg := pkg', calcChain := c.1 }, c.2)

deriving instance DecidableEq for Except

/-! ## Helper lemmas -/

/-- On a successful walk, the adjusted merge list is the order-preserving
`filterMap` of the per-region adjustment over the original list. -/
theorem adjustMergeCellList_eq_filterMap (dir : AdjustDirection) (num offset : Int) :
    ∀ cells : List MergeCell, (adjustMergeCellList dir num offset cells).2 = none →
      (adjustMergeCellList dir num offset cells).1 =
        cells.filterMap (fun c0 => (adjustOneMergeCell c0 dir num offset).toOption.join) := by
  intro cells
  induction cells with
  | nil => intro _; rfl
  | cons c rest ih =>
    intro h
    rcases ho : adjustOneMergeCell c dir num offset with e | o
    · exfalso
      simp only [adjustMergeCellList, ho] at h
      exact Option.some_ne_none e h
    · cases o with
      | none =>
        simp only [adjustMergeCellList, ho] at h ⊢
        simp only [List.filterMap_cons, ho, Except.toOption, Option.join]
        exact ih h
      | some c' =>
        simp only [adjustMergeCellList, ho] at h ⊢
        simp only [List.filterMap_cons, ho, Except.toOption, Option.join]
        exact congrArg (c' :: ·) (ih h)

/-- The walk surfaces the error of the first failing region when every
earlier region adjusts without error. -/
theorem adjustMergeCellList_first_error (dir : AdjustDirection) (num offset : Int)
    (err : AdjustError) :
    ∀ (pre : List MergeCell) (c : MergeCell) (post : List MergeCell),
      (∀ c' ∈ pre, ∃ o, adjustOneMergeCell c' dir num offset = .ok o) →
      adjustOneMergeCell c dir num offset = .error err →
      (adjustMergeCellList dir num offset (pre ++ c :: post)).2 = some err := by
  intro pre
  induction pre with
  | nil =>
    intro c post _ hc
    simp only [List.nil_append, adjustMergeCellList, hc]
  | cons p rest ih =>
    intro c post hpre hc
    obtain ⟨o, ho⟩ := hpre p (List.mem_cons_self p rest)
    have hrest : ∀ c' ∈ rest, ∃ o, adjustOneMergeCell c' dir num offset = .ok o :=
      fun c' hmem => hpre c' (List.mem_cons_of_mem p hmem)
    rw [List.cons_append]
    simp only [adjustMergeCellList, ho]
    cases o with
    | none => exact ih c post hrest hc
    | some p' => exact ih c post hrest hc

/-- The chain walk surfaces the error of the first failing entry when
every earlier entry adjusts without error. -/
theorem adjustCalcChainList_first_error (dir : AdjustDirection) (num offset sheetID : Int)
    (err : AdjustError) :
    ∀ (pre : List CalcChainEntry) (e : CalcChainEntry) (post : List CalcChainEntry),
      (∀ e' ∈ pre, ∃ x, adjustCalcChainEntry e' dir num offset sheetID = .ok x) →
      adjustCalcChainEntry e dir num offset sheetID = .error err →
      (adjustCalcChainList dir num offset sheetID (pre ++ e :: post)).2 = some err := by
  intro pre
  induction pre with
  | nil =>
    intro e post _ he
    simp only [List.nil_append, adjustCalcChainList, he]
  | cons p rest ih =>
    intro e post hpre he
    obtain ⟨x, hx⟩ := hpre p (List.mem_cons_self p rest)
    have hrest : ∀ e' ∈ rest, ∃ x, adjustCalcChainEntry e' dir num offset sheetID = .ok x :=
      fun e' hmem => hpre e' (List.mem_cons_of_mem p hmem)
    rw [List.cons_append]
    simp only [adjustCalcChainList, hx]
    exact ih e post hrest he

/-- Lookup after a store: the stored path reads back the new part when
it was present, every other path is untouched. -/
theorem lookupPart_storePart (pkg : List (String × PkgPart)) (path : String)
    (part : PkgPart) (q : String) :
    lookupPart (storePart pkg path part) q =
      if q = path then (lookupPart pkg q).map (fun _ => part) else lookupPart pkg q := by
  induction pkg with
  | nil => by_cases h : q = path <;> simp [storePart, lookupPart, h]
  | cons hd tl ih =>
    obtain ⟨k, v⟩ := hd
    have hcons : storePart ((k, v) :: tl) path part =
        (k, if k = path then part else v) :: storePart tl path part := rfl
    rw [hcons]
    by_cases hkq : k = q
    · subst hkq
      by_cases hk : k = path
      · simp [lookupPart, hk, ih]
      · simp [lookupPart, hk, ih]
    · by_cases hq : q = path
      · have hkp : ¬k = path := fun h => hkq (h.trans hq.symm)
        subst hq
        simp [lookupPart, hkq, hkp, ih]
      · simp [lookupPart, hkq, hq, ih]

/-- The part stored at `path` is "skipped" by the table adjuster: absent,
undecodable, or holding an unparsable range reference. -/
def partSkipped (pkg : List (String × PkgPart)) (path : String) : Prop :=
  lookupPart pkg path = none ∨ lookupPart pkg path = some .undecodable ∨
    ∃ ref err, lookupPart pkg path = some (.tablePart ref) ∧
      rangeRefToCoordinates ref = .error err

/-- A missing part makes the single-table step a no-op. -/
theorem adjustSingleTable_of_none (pkg : List (String × PkgPart)) (p' : String)
    (dir : AdjustDirection) (num offset : Int) (h : lookupPart pkg p' = none) :
    adjustSingleTable pkg p' dir num offset = pkg := by
  unfold adjustSingleTable
  rw [h]

/-- An undecodable part makes the single-table step a no-op. -/
theorem adjustSingleTable_of_undecodable (pkg : List (String × PkgPart)) (p' : String)
    (dir : AdjustDirection) (num offset : Int)
    (h : lookupPart pkg p' = some .undecodable) :
    adjustSingleTable pkg p' dir num offset = pkg := by
  unfold adjustSingleTable
  rw [h]

/-- An unparsable range reference makes the single-table step a no-op. -/
theorem adjustSingleTable_of_badref (pkg : List (String × PkgPart)) (p' : String)
    (dir : AdjustDirection) (num offset : Int) (ref : String) (err : AdjustError)
    (h : lookupPart pkg p' = some (.tablePart ref))
    (hr : rangeRefToCoordinates ref = .error err) :
    adjustSingleTable pkg p' dir num offset = pkg := by
  unfold adjustSingleTable
  rw [h]
  simp only [hr]

/-- A present, decodable, parsable part gets its adjusted (collapse
clamped) reference written back. -/
theorem adjustSingleTable_of_goodref (pkg : List (String × PkgPart)) (p' : String)
    (dir : AdjustDirection) (num offset : Int) (ref : String) (r : Rect)
    (h : lookupPart pkg p' = some (.tablePart ref))
    (hr : rangeRefToCoordinates ref = .ok r) :
    adjustSingleTable pkg p' dir num offset =
      storePart pkg p'
        (.tablePart (coordinatesToFilterRef (clampRect (adjustRect r dir num offset)))) := by
  unfold adjustSingleTable
  rw [h]
  simp only [hr]

/-- Adjusting the table at `p'` never changes what is stored at a
different path. -/
theorem adjustSingleTable_lookup_ne (pkg : List (String × PkgPart)) (p' : String)
    (dir : AdjustDirection) (num offset : Int) (path : String) (h : path ≠ p') :
    lookupPart (adjustSingleTable pkg p' dir num offset) path = lookupPart pkg path := by
  rcases hl : lookupPart pkg p' with _ | part
  · rw [adjustSingleTable_of_none pkg p' dir num offset hl]
  · cases part with
    | undecodable => rw [adjustSingleTable_of_undecodable pkg p' dir num offset hl]
    | tablePart ref =>
      rcases hr : rangeRefToCoordinates ref with e | r
      · rw [adjustSingleTable_of_badref pkg p' dir num offset ref e hl hr]
      · rw [adjustSingleTable_of_goodref pkg p' dir num offset ref r hl hr,
          lookupPart_storePart, if_neg h]

/-- Adjusting the table at any path leaves a skipped path untouched. -/
theorem adjustSingleTable_lookup_skipped (pkg : List (String × PkgPart)) (p' : String)
    (dir : AdjustDirection) (num offset : Int) (path : String)
    (hbad : partSkipped pkg path) :
    lookupPart (adjustSingleTable pkg p' dir num offset) path = lookupPart pkg path := by
  by_cases hpp : path = p'
  · subst hpp
    rcases hbad with h1 | h2 | ⟨ref, err, h3, h4⟩
    · rw [adjustSingleTable_of_none pkg path dir num offset h1]
    · rw [adjustSingleTable_of_undecodable pkg path dir num offset h2]
    · rw [adjustSingleTable_of_badref pkg path dir num offset ref err h3 h4]
  · exact adjustSingleTable_lookup_ne pkg p' dir num offset path hpp

/-- The whole table pass leaves every skipped path untouched. -/
theorem adjustTable_lookup_skipped (dir : AdjustDirection) (num offset : Int) (path : String) :
    ∀ (paths : List String) (pkg : List (String × PkgPart)), partSkipped pkg path →
      lookupPart (adjustTable pkg paths dir num offset) path = lookupPart pkg path := by
  intro paths
  induction paths with
  | nil => intro pkg _; rfl
  | cons p' rest ih =>
    intro pkg hbad
    have hstep := adjustSingleTable_lookup_skipped pkg p' dir num offset path hbad
    have hbad' : partSkipped (adjustSingleTable pkg p' dir num offset) path := by
      unfold partSkipped at hbad ⊢
      rw [hstep]
      exact hbad
    calc lookupPart (adjustTable (adjustSingleTable pkg p' dir num offset) rest dir num offset) path
        = lookupPart (adjustSingleTable pkg p' dir num offset) path := ih _ hbad'
      _ = lookupPart pkg path := hstep

/-- A pass over paths not containing `path` leaves `path` untouched. -/
theorem adjustTable_lookup_notMem (dir : AdjustDirection) (num offset : Int) (path : String) :
    ∀ (paths : List String) (pkg : List (String × PkgPart)), path ∉ paths →
      lookupPart (adjustTable pkg paths dir num offset) path = lookupPart pkg path := by
  intro paths
  induction paths with
  | nil => intro pkg _; rfl
  | cons p' rest ih =>
    intro pkg hnot
    have h1 : path ≠ p' := fun h => hnot (h ▸ List.mem_cons_self p' rest)
    have h2 : path ∉ rest := fun h => hnot (List.mem_cons_of_mem p' h)
    calc lookupPart (adjustTable (adjustSingleTable pkg p' dir num offset) rest dir num offset) path
        = lookupPart (adjustSingleTable pkg p' dir num offset) path := ih _ h2
      _ = lookupPart pkg path := adjustSingleTable_lookup_ne pkg p' dir num offset path h1

/-- A table whose path occurs once in the pass list and whose part is
present, decodable and parsable ends up with the adjusted reference. -/
theorem adjustTable_lookup_good (dir : AdjustDirection) (num offset : Int) (path ref : String)
    (r : Rect) (hparse : rangeRefToCoordinates ref = .ok r) :
    ∀ (l1 l2 : List String) (pkg : List (String × PkgPart)), path ∉ l1 → path ∉ l2 →
      lookupPart pkg path = some (.tablePart ref) →
      lookupPart (adjustTable pkg (l1 ++ path :: l2) dir num offset) path =
        some (.tablePart (coordinatesToFilterRef (clampRect (adjustRect r dir num offset)))) := by
  intro l1
  induction l1 with
  | nil =>
    intro l2 pkg _ hl2 hlook
    rw [List.nil_append]
    show lookupPart
      (adjustTable (adjustSingleTable pkg path dir num offset) l2 dir num offset) path = _
    rw [adjustTable_lookup_notMem dir num offset path l2 _ hl2]
    rw [adjustSingleTable_of_goodref pkg path dir num offset ref r hlook hparse]
    rw [lookupPart_storePart, if_pos rfl, hlook]
    rfl
  | cons p' rest ih =>
    intro l2 pkg hl1 hl2 hlook
    have hne : path ≠ p' := fun h => hl1 (h ▸ List.mem_cons_self p' rest)
    have hrest : path ∉ rest := fun h => hl1 (List.mem_cons_of_mem p' h)
    rw [List.cons_append]
    show lookupPart
      (adjustTable (adjustSingleTable pkg p' dir num offset) (rest ++ path :: l2)
        dir num offset) path = _
    refine ih l2 _ hrest hl2 ?_
    rw [adjustSingleTable_lookup_ne pkg p' dir num offset path hne, hlook]

/-- The merge-region adjuster never touches the sheet index. -/
theorem adjustMergeCells_sheetID (ws : Worksheet) (dir : AdjustDirection) (num offset : Int) :
    (adjustMergeCells ws dir num offset).1.sheetID = ws.sheetID := by
  rcases h : ws.mergeCells with _ | cells
  · simp [adjustMergeCells, h]
  · simp [adjustMergeCells, h]

/-- The auto-filter adjuster never touches the sheet index. -/
theorem adjustAutoFilter_sheetID (ws : Worksheet) (dir : AdjustDirection) (num offset : Int) :
    (adjustAutoFilter ws dir num offset).1.sheetID = ws.sheetID := by
  rcases haf : ws.autoFilter with _ | ref
  · simp [adjustAutoFilter, haf]
  · rcases hr : rangeRefToCoordinates ref with e | r
    · simp [adjustAutoFilter, haf, hr]
    · by_cases hcol : (adjustRect r dir num offset).isCollapsed
      · simp [adjustAutoFilter, haf, hr, hcol]
      · simp [adjustAutoFilter, haf, hr, hcol]

/-! ## Claims -/

/-- C1: the axis interval adjuster satisfies, for every interval with
start ≤ end and every k = |offset| > 0: inserting k at pivot ≤ start
yields (start+k, end+k); inserting at start < pivot ≤ end yields
(start, end+k); deleting k at pivot < start yields (start-k, end-k);
deleting at start ≤ pivot ≤ end yields (start, end+offset); a pivot
strictly past end leaves the interval unchanged — and the rect-level
wrapper applies the adjuster to one axis only per call. -/
theorem adjustAxis_branch_table (s e p k : Int) (hse : s ≤ e) (hk : 0 < k) :
    (p ≤ s → adjustAxis s e p k = (s + k, e + k)) ∧
    (s < p → p ≤ e → adjustAxis s e p k = (s, e + k)) ∧
    (p < s → adjustAxis s e p (-k) = (s - k, e - k)) ∧
    (s ≤ p → p ≤ e → adjustAxis s e p (-k) = (s, e + (-k))) ∧
    (e < p → adjustAxis s e p k = (s, e) ∧ adjustAxis s e p (-k) = (s, e)) ∧
    (∀ (r : Rect) (offset : Int),
      (adjustRect r .rows p offset).x1 = r.x1 ∧ (adjustRect r .rows p offset).x2 = r.x2 ∧
      (adjustRect r .columns p offset).y1 = r.y1 ∧
      (adjustRect r .columns p offset).y2 = r.y2) := by
  refine ⟨?_, ?_, ?_, ?_, ?_, ?_⟩
  · intro hp
    unfold adjustAxis
    rw [if_pos hk, if_pos hp]
  · intro hp1 hp2
    unfold adjustAxis
    rw [if_pos hk, if_neg (by omega), if_pos hp2]
  · intro hp
    unfold adjustAxis
    rw [if_neg (by omega), if_pos (by omega), if_pos hp]
    simp only [Prod.mk.injEq]
    omega
  · intro hp1 hp2
    unfold adjustAxis
    rw [if_neg (by omega), if_pos (by omega), if_neg (by omega), if_pos hp2]
  · intro hp
    constructor
    · unfold adjustAxis
      rw [if_pos hk, if_neg (by omega), if_neg (by omega)]
    · unfold adjustAxis
      rw [if_neg (by omega), if_pos (by omega), if_neg (by omega), if_neg (by omega)]
  · intro r off
    exact ⟨rfl, rfl, rfl, rfl⟩

/-- Witness for C1 at the concrete intervals of the test file. -/
theorem adjustAxis_branch_table_witness :
    adjustAxis 2 3 2 1 = (2 + 1, 3 + 1) ∧ adjustAxis 2 3 3 1 = (2, 3 + 1) ∧
    adjustAxis 2 3 1 (-1) = (2 - 1, 3 - 1) ∧ adjustAxis 2 3 2 (-1) = (2, 3 + (-1)) ∧
    (adjustAxis 2 3 4 1 = (2, 3) ∧ adjustAxis 2 3 4 (-1) = (2, 3)) ∧
    (adjustRect ⟨1, 2, 2, 3⟩ .rows 2 1).x1 = 1 :=
  ⟨(adjustAxis_branch_table 2 3 2 1 (by decide) (by decide)).1 (by decide),
   (adjustAxis_branch_table 2 3 3 1 (by decide) (by decide)).2.1 (by decide) (by decide),
   (adjustAxis_branch_table 2 3 1 1 (by decide) (by decide)).2.2.1 (by decide),
   (adjustAxis_branch_table 2 3 2 1 (by decide) (by decide)).2.2.2.1 (by decide) (by decide),
   (adjustAxis_branch_table 2 3 4 1 (by decide) (by decide)).2.2.2.2.1 (by decide),
   ((adjustAxis_branch_table 2 3 2 1 (by decide) (by decide)).2.2.2.2.2 ⟨1, 2, 2, 3⟩ 1).1⟩

/-- C2: on a worksheet whose single merge region collapses under the
adjustment, the call succeeds, the region list becomes empty (length
decreases from one to zero), and — in general — a successful walk is an
order-preserving filter of the region list, so survivors keep their
relative order. -/
theorem adjustMergeCells_collapse_pruned
    (ws : Worksheet) (c : MergeCell) (dir : AdjustDirection) (num offset : Int) (r : Rect)
    (hcells : ws.mergeCells = some [c])
    (hparse : mergeCellRect c = .ok r)
    (hcollapse : (adjustRect r dir num offset).isCollapsed = true) :
    (adjustMergeCells ws dir num offset).2 = none ∧
    (adjustMergeCells ws dir num offset).1.mergeCells = some ([] : List MergeCell) ∧
    (∀ cells : List MergeCell, (adjustMergeCellList dir num offset cells).2 = none →
      (adjustMergeCellList dir num offset cells).1 =
        cells.filterMap (fun c0 => (adjustOneMergeCell c0 dir num offset).toOption.join)) := by
  have hone : adjustOneMergeCell c dir num offset = .ok none := by
    unfold adjustOneMergeCell
    rw [hparse]
    simp only [hcollapse, if_true]
  refine ⟨?_, ?_, adjustMergeCellList_eq_filterMap dir num offset⟩
  · simp only [adjustMergeCells, hcells, adjustMergeCellList, hone]
  · simp only [adjustMergeCells, hcells, adjustMergeCellList, hone]

/-- The A1:B1 worksheet of the deletion test. -/
def wsSingleRowMerge : Worksheet :=
  { sheetData := [], autoFilter := none,
    mergeCells := some [{ ref := "A1:B1", rect := some ⟨1, 1, 2, 1⟩ }],
    tablePaths := [], sheetID := 1 }

/-- Witness for C2: deleting the single row of A1:B1 at pivot 1 empties
the merge list and succeeds. -/
theorem adjustMergeCells_collapse_pruned_witness :
    (adjustMergeCells wsSingleRowMerge .rows 1 (-1)).2 = none ∧
    (adjustMergeCells wsSingleRowMerge .rows 1 (-1)).1.mergeCells =
      some ([] : List MergeCell) :=
  ⟨(adjustMergeCells_collapse_pruned wsSingleRowMerge
      { ref := "A1:B1", rect := some ⟨1, 1, 2, 1⟩ } .rows 1 (-1) ⟨1, 1, 2, 1⟩
      (by decide) (by decide) (by decide)).1,
   (adjustMergeCells_collapse_pruned wsSingleRowMerge
      { ref := "A1:B1", rect := some ⟨1, 1, 2, 1⟩ } .rows 1 (-1) ⟨1, 1, 2, 1⟩
      (by decide) (by decide) (by decide)).2.1⟩

/-- C3: a worksheet holding a merge region whose reference fails to
parse makes adjustMergeCells fail with an InvalidCellReference error
naming the unparsable half, and adjustHelper on a document resolving to
that sheet returns the same error. -/
theorem adjustMergeCells_unparsable_ref
    (f : File) (name : String) (ws : Worksheet) (dir : AdjustDirection) (num offset : Int)
    (pre post : List MergeCell) (c : MergeCell) (a b : String)
    (hcells : ws.mergeCells = some (pre ++ c :: post))
    (hpre : ∀ c' ∈ pre, ∃ o, adjustOneMergeCell c' dir num offset = .ok o)
    (hsplit : splitOnColon c.ref = [a, b])
    (hsheet : lookupSheet f.sheets name = some ws) :
    (parseCellName a = none →
      (adjustMergeCells ws dir num offset).2 = some (.invalidCellReference a) ∧
      (adjustHelper f name dir num offset).2 = some (.invalidCellReference a)) ∧
    (∀ x, parseCellName a = some x → parseCellName b = none →
      (adjustMergeCells ws dir num offset).2 = some (.invalidCellReference b) ∧
      (adjustHelper f name dir num offset).2 = some (.invalidCellReference b)) := by
  have main : ∀ err : AdjustError, adjustOneMergeCell c dir num offset = .error err →
      (adjustMergeCells ws dir num offset).2 = some err ∧
      (adjustHelper f name dir num offset).2 = some err := by
    intro err hc
    have hlist := adjustMergeCellList_first_error dir num offset err pre c post hpre hc
    have hm : (adjustMergeCells ws dir num offset).2 = some err := by
      simp only [adjustMergeCells, hcells]
      exact hlist
    refine ⟨hm, ?_⟩
    simp only [adjustHelper, hsheet, hm]
  refine ⟨?_, ?_⟩
  · intro ha
    apply main
    have hrect : mergeCellRect c = .error (.invalidCellReference a) := by
      simp only [mergeCellRect, hsplit, parseRangeHalves, ha]
    unfold adjustOneMergeCell
    rw [hrect]
  · intro x hx hb
    obtain ⟨c1, r1⟩ := x
    apply main
    have hrect : mergeCellRect c = .error (.invalidCellReference b) := by
      simp only [mergeCellRect, hsplit, parseRangeHalves, hx, hb]
    unfold adjustOneMergeCell
    rw [hrect]

/-- A worksheet carrying the unparsable merge reference "A:B1". -/
def wsBadMergeRef : Worksheet :=
  { sheetData := [], autoFilter := none,
    mergeCells := some [{ ref := "A:B1", rect := none }],
    tablePaths := [], sheetID := 1 }

/-- A document whose Sheet1 carries the unparsable merge reference. -/
def fileBadMergeRef : File :=
  { sheets := [("Sheet1", wsBadMergeRef)], pkg := [], calcChain := none }

/-- Witness for C3 on the test file's "A:B1" reference: the error names
the unparsable half "A" at both the adjuster and orchestrator levels. -/
theorem adjustMergeCells_unparsable_ref_witness :
    (adjustMergeCells wsBadMergeRef .rows 0 0).2 = some (.invalidCellReference "A") ∧
    (adjustHelper fileBadMergeRef "Sheet1" .rows 0 0).2 = some (.invalidCellReference "A") :=
  (adjustMergeCells_unparsable_ref fileBadMergeRef "Sheet1" wsBadMergeRef .rows 0 0
      [] [] { ref := "A:B1", rect := none } "A" "B1"
      (by decide) (fun c' h => absurd h (List.not_mem_nil c'))
      (by decide) (by decide)).1 (by decide)

/-- C4: an unparsable calculation-chain entry on the affected sheet makes
the whole adjustment call fail with InvalidCellReference for that
reference, even though the merge, filter (and always-soft table) stages
of the same call succeeded. -/
theorem adjustHelper_calcChain_hard_failure
    (f : File) (name : String) (ws : Worksheet) (dir : AdjustDirection) (num offset : Int)
    (pre post : List CalcChainEntry) (e : CalcChainEntry)
    (hsheet : lookupSheet f.sheets name = some ws)
    (hmerge : (adjustMergeCells ws dir num offset).2 = none)
    (hfilter : (adjustAutoFilter (adjustMergeCells ws dir num offset).1 dir num offset).2 = none)
    (hchain : f.calcChain = some (pre ++ e :: post))
    (hpre : ∀ e' ∈ pre, ∃ x, adjustCalcChainEntry e' dir num offset ws.sheetID = .ok x)
    (hi : e.i = ws.sheetID)
    (hbad : parseCellName e.r = none) :
    (adjustHelper f name dir num offset).2 = some (.invalidCellReference e.r) := by
  have hsid : (adjustAutoFilter (adjustMergeCells ws dir num offset).1 dir num offset).1.sheetID
      = ws.sheetID := by
    rw [adjustAutoFilter_sheetID, adjustMergeCells_sheetID]
  have hentry : adjustCalcChainEntry e dir num offset ws.sheetID =
      .error (.invalidCellReference e.r) := by
    unfold adjustCalcChainEntry
    rw [if_neg (not_not_intro hi)]
    simp only [hbad]
  have hlist := adjustCalcChainList_first_error dir num offset ws.sheetID
    (.invalidCellReference e.r) pre e post hpre hentry
  have hcc : (adjustCalcChain f.calcChain dir num offset ws.sheetID).2 =
      some (.invalidCellReference e.r) := by
    simp only [adjustCalcChain, hchain, hlist]
  simp only [adjustHelper, hsheet, hmerge, hfilter, hsid]
  exact hcc

/-- A bare worksheet: no merge regions, no filter, no tables. -/
def wsPlain : Worksheet :=
  { sheetData := [], autoFilter := none, mergeCells := none, tablePaths := [], sheetID := 1 }

/-- The test file's document: a valid chain entry on another sheet
followed by "invalid coordinates" on the adjusted sheet. -/
def fileBadCalc : File :=
  { sheets := [("Sheet1", wsPlain)], pkg := [],
    calcChain := some [{ r := "B2", i := 2 }, { r := "invalid coordinates", i := 1 }] }

/-- Witness for C4 on the test scenario: inserting a column on Sheet1
fails with the unparsable chain reference. -/
theorem adjustHelper_calcChain_hard_failure_witness :
    (adjustHelper fileBadCalc "Sheet1" .columns 1 1).2 =
      some (.invalidCellReference "invalid coordinates") :=
  adjustHelper_calcChain_hard_failure fileBadCalc "Sheet1" wsPlain .columns 1 1
    [{ r := "B2", i := 2 }] [] { r := "invalid coordinates", i := 1 }
    (by decide) (by decide) (by decide) (by decide)
    (by
      intro e' h
      rw [List.mem_singleton] at h
      subst h
      exact ⟨{ r := "B2", i := 2 }, by decide⟩)
    (by decide) (by decide)

/-- C5: a table part that is missing, undecodable, or holds an
unparsable range is left unmodified by the table pass; other tables on
the sheet are still adjusted; and the adjustment call still succeeds
since the table stage never produces a hard error. -/
theorem adjustTable_resilient
    (pkg : List (String × PkgPart)) (paths : List String) (dir : AdjustDirection)
    (num offset : Int) (path : String) :
    (lookupPart pkg path = none →
      lookupPart (adjustTable pkg paths dir num offset) path = none) ∧
    (lookupPart pkg path = some .undecodable →
      lookupPart (adjustTable pkg paths dir num offset) path = some .undecodable) ∧
    (∀ ref err, lookupPart pkg path = some (.tablePart ref) →
      rangeRefToCoordinates ref = .error err →
      lookupPart (adjustTable pkg paths dir num offset) path = some (.tablePart ref)) ∧
    (∀ (l1 l2 : List String) (ref : String) (r : Rect),
      paths = l1 ++ path :: l2 → path ∉ l1 → path ∉ l2 →
      lookupPart pkg path = some (.tablePart ref) →
      rangeRefToCoordinates ref = .ok r →
      lookupPart (adjustTable pkg paths dir num offset) path =
        some (.tablePart (coordinatesToFilterRef (clampRect (adjustRect r dir num offset))))) ∧
    (∀ (f : File) (name : String) (ws : Worksheet),
      lookupSheet f.sheets name = some ws →
      (adjustMergeCells ws dir num offset).2 = none →
      (adjustAutoFilter (adjustMergeCells ws dir num offset).1 dir num offset).2 = none →
      (adjustCalcChain f.calcChain dir num offset ws.sheetID).2 = none →
      (adjustHelper f name dir num offset).2 = none) := by
  refine ⟨?_, ?_, ?_, ?_, ?_⟩
  · intro h
    rw [adjustTable_lookup_skipped dir num offset path paths pkg (Or.inl h), h]
  · intro h
    rw [adjustTable_lookup_skipped dir num offset path paths pkg (Or.inr (Or.inl h)), h]
  · intro ref err h hr
    rw [adjustTable_lookup_skipped dir num offset path paths pkg
      (Or.inr (Or.inr ⟨ref, err, h, hr⟩)), h]
  · intro l1 l2 ref r hpaths h1 h2 hlook hr
    subst hpaths
    exact adjustTable_lookup_good dir num offset path ref r hr l1 l2 pkg h1 h2 hlook
  · intro f name ws hsheet hm hf hc
    have hsid : (adjustAutoFilter (adjustMergeCells ws dir num offset).1 dir num
        offset).1.sheetID = ws.sheetID := by
      rw [adjustAutoFilter_sheetID, adjustMergeCells_sheetID]
    simp only [adjustHelper, hsheet, hm, hf, hsid]
    exact hc

/-- The package store of the table-resilience scenario: an undecodable
part, a part with an unparsable range, and one good table. -/
def pkgTables : List (String × PkgPart) :=
  [("xl/tables/table1.xml", .undecodable),
   ("xl/tables/table2.xml", .tablePart "-"),
   ("xl/tables/table3.xml", .tablePart "A1:D5")]

/-- A sheet associated with four table paths, one of them missing from
the package store. -/
def wsTables : Worksheet :=
  { sheetData := [], autoFilter := none, mergeCells := none,
    tablePaths := ["xl/tables/table0.xml", "xl/tables/table1.xml",
                   "xl/tables/table2.xml", "xl/tables/table3.xml"], sheetID := 1 }

/-- The document of the table-resilience scenario. -/
def fileTables : File :=
  { sheets := [("Sheet1", wsTables)], pkg := pkgTables, calcChain := none }

/-- Witness for C5: the missing/undecodable/unparsable parts survive
unmodified, the good table is adjusted, and the call succeeds. -/
theorem adjustTable_resilient_witness :
    lookupPart (adjustTable pkgTables wsTables.tablePaths .rows 1 (-1))
      "xl/tables/table0.xml" = none ∧
    lookupPart (adjustTable pkgTables wsTables.tablePaths .rows 1 (-1))
      "xl/tables/table1.xml" = some .undecodable ∧
    lookupPart (adjustTable pkgTables wsTables.tablePaths .rows 1 (-1))
      "xl/tables/table2.xml" = some (.tablePart "-") ∧
    lookupPart (adjustTable pkgTables wsTables.tablePaths .rows 1 (-1))
      "xl/tables/table3.xml" =
        some (.tablePart (coordinatesToFilterRef
          (clampRect (adjustRect ⟨1, 1, 4, 5⟩ .rows 1 (-1))))) ∧
    (adjustHelper fileTables "Sheet1" .rows 1 (-1)).2 = none :=
  ⟨(adjustTable_resilient pkgTables wsTables.tablePaths .rows 1 (-1)
      "xl/tables/table0.xml").1 (by decide),
   (adjustTable_resilient pkgTables wsTables.tablePaths .rows 1 (-1)
      "xl/tables/table1.xml").2.1 (by decide),
   (adjustTable_resilient pkgTables wsTables.tablePaths .rows 1 (-1)
      "xl/tables/table2.xml").2.2.1 "-" (.invalidCellReference "-") (by decide) (by decide),
   (adjustTable_resilient pkgTables wsTables.tablePaths .rows 1 (-1)
      "xl/tables/table3.xml").2.2.2.1
      ["xl/tables/table0.xml", "xl/tables/table1.xml", "xl/tables/table2.xml"] []
      "A1:D5" ⟨1, 1, 4, 5⟩ (by decide) (by decide) (by decide) (by decide) (by decide),
   (adjustTable_resilient pkgTables wsTables.tablePaths .rows 1 (-1)
      "xl/tables/table3.xml").2.2.2.2 fileTables "Sheet1" wsTables
      (by decide) (by decide) (by decide) (by decide)⟩

/-- C6: an unresolvable sheet name makes adjustHelper fail with
SheetNotFound naming that sheet, returning the document unchanged — no
adjustment work is performed on any artifact. -/
theorem adjustHelper_sheet_not_found
    (f : File) (name : String) (dir : AdjustDirection) (num offset : Int)
    (h : lookupSheet f.sheets name = none) :
    adjustHelper f name dir num offset = (f, some (.sheetNotFound name)) := by
  simp only [adjustHelper, h]

/-- The single-sheet document of the sheet-not-found scenario. -/
def fileOneSheet : File :=
  { sheets := [("Sheet1", wsPlain)], pkg := [], calcChain := none }

/-- Witness for C6 on the test's "SheetN" lookup. -/
theorem adjustHelper_sheet_not_found_witness :
    adjustHelper fileOneSheet "SheetN" .rows 0 0 =
      (fileOneSheet, some (.sheetNotFound "SheetN")) :=
  adjustHelper_sheet_not_found fileOneSheet "SheetN" .rows 0 0 (by decide)

/-- C7: the orchestrator returns the first hard error of the fixed
pipeline merge → auto-filter → table → calc-chain without invoking later
stages (their artifacts — package store, calc chain — are returned
unchanged), while the stages before the failing one remain mutated in
the returned document. -/
theorem adjustHelper_pipeline_first_error
    (f : File) (name : String) (dir : AdjustDirection) (num offset : Int) (ws : Worksheet)
    (hsheet : lookupSheet f.sheets name = some ws) :
    (∀ ws1 e, adjustMergeCells ws dir num offset = (ws1, some e) →
      adjustHelper f name dir num offset =
        ({ f with sheets := updateSheet f.sheets name ws1 }, some e)) ∧
    (∀ ws1 ws2 e, adjustMergeCells ws dir num offset = (ws1, none) →
      adjustAutoFilter ws1 dir num offset = (ws2, some e) →
      adjustHelper f name dir num offset =
        ({ f with sheets := updateSheet f.sheets name ws2 }, some e)) := by
  constructor
  · intro ws1 e hm
    simp only [adjustHelper, hsheet, hm]
  · intro ws1 ws2 e hm hf
    simp only [adjustHelper, hsheet, hm, hf]

/-- The pipeline scenario: a valid merge region followed by an
unparsable auto-filter reference, plus a table part and a calc chain
that must stay untouched. -/
def wsPipeline : Worksheet :=
  { sheetData := [], autoFilter := some "A1:B",
    mergeCells := some [{ ref := "A2:B3", rect := some ⟨1, 2, 2, 3⟩ }],
    tablePaths := ["t"], sheetID := 1 }

/-- The pipeline worksheet after the merge stage mutated it. -/
def wsPipelineMerged : Worksheet :=
  { sheetData := [], autoFilter := some "A1:B",
    mergeCells := some [{ ref := "A3:B4", rect := some ⟨1, 3, 2, 4⟩ }],
    tablePaths := ["t"], sheetID := 1 }

/-- The pipeline scenario's document. -/
def filePipeline : File :=
  { sheets := [("Sheet1", wsPipeline)], pkg := [("t", .tablePart "A1:B2")],
    calcChain := some [{ r := "B2", i := 1 }] }

/-- Witness for C7: inserting a row, the merge stage commits A2:B3 →
A3:B4, the filter stage fails on "B", and the package store and calc
chain come back untouched. -/
theorem adjustHelper_pipeline_first_error_witness :
    adjustHelper filePipeline "Sheet1" .rows 2 1 =
      ({ filePipeline with sheets := updateSheet filePipeline.sheets "Sheet1" wsPipelineMerged },
        some (.invalidCellReference "B")) :=
  (adjustHelper_pipeline_first_error filePipeline "Sheet1" .rows 2 1 wsPipeline
      (by decide)).2 wsPipelineMerged wsPipelineMerged
      (.invalidCellReference "B") (by decide) (by decide)

/-- C8: range parsing normalizes by per-axis min/max instead of
rejecting reversed ranges — "B3:A1" parses — and the pair-adjustment
helper returns reversed bounds in (min, max) order. -/
theorem rangeRef_normalized_not_rejected :
    rangeRefToCoordinates "B3:A1" = .ok ⟨1, 1, 2, 3⟩ ∧
    ∀ p1 p2 : Int, p2 < p1 → adjustMergeCellsHelper p1 p2 0 0 = (p2, p1) := by
  constructor
  · decide
  · intro p1 p2 h
    unfold adjustMergeCellsHelper adjustAxis
    rw [if_neg (by omega), if_neg (by omega)]
    simp only [Prod.mk.injEq]
    exact ⟨min_eq_right (le_of_lt h), max_eq_left (le_of_lt h)⟩

/-- Witness for C8 at the test's concrete input. -/
theorem rangeRef_normalized_not_rejected_witness :
    rangeRefToCoordinates "B3:A1" = .ok ⟨1, 1, 2, 3⟩ ∧
    adjustMergeCellsHelper 2 1 0 0 = (1, 2) :=
  ⟨rangeRef_normalized_not_rejected.1,
   rangeRef_normalized_not_rejected.2 2 1 (by decide)⟩

/-- C9: the auto-filter adjuster only relocates the filter's range
boundaries: a successful adjustment returns the row data — and with it
every per-row hidden flag — unchanged. -/
theorem adjustAutoFilter_preserves_hidden
    (ws : Worksheet) (dir : AdjustDirection) (num offset : Int)
    (_h : (adjustAutoFilter ws dir num offset).2 = none) :
    (adjustAutoFilter ws dir num offset).1.sheetData = ws.sheetData := by
  rcases haf : ws.autoFilter with _ | ref
  · simp [adjustAutoFilter, haf]
  · rcases hr : rangeRefToCoordinates ref with e | r
    · simp [adjustAutoFilter, haf, hr]
    · by_cases hcol : (adjustRect r dir num offset).isCollapsed
      · simp [adjustAutoFilter, haf, hr, hcol]
      · simp [adjustAutoFilter, haf, hr, hcol]

/-- The filter scenario of the test: a hidden row 2 and filter A1:A3. -/
def wsFiltered : Worksheet :=
  { sheetData := [{ r := 2, hidden := true }], autoFilter := some "A1:A3",
    mergeCells := none, tablePaths := [], sheetID := 1 }

/-- Witness for C9: deleting row 1 under filter A1:A3 leaves the hidden
flag of row 2 untouched. -/
theorem adjustAutoFilter_preserves_hidden_witness :
    (adjustAutoFilter wsFiltered .rows 1 (-1)).1.sheetData = wsFiltered.sheetData :=
  adjustAutoFilter_preserves_hidden wsFiltered .rows 1 (-1) (by decide)

/-- C10: an absent calculation chain is a no-op for the chain adjuster,
not an error, so a row/column adjustment call whose other stages succeed
returns success. -/
theorem adjustCalcChain_absent_chain_noop :
    (∀ (dir : AdjustDirection) (num offset sheetID : Int),
      adjustCalcChain none dir num offset sheetID = (none, none)) ∧
    (∀ (f : File) (name : String) (dir : AdjustDirection) (num offset : Int) (ws : Worksheet),
      f.calcChain = none →
      lookupSheet f.sheets name = some ws →
      (adjustMergeCells ws dir num offset).2 = none →
      (adjustAutoFilter (adjustMergeCells ws dir num offset).1 dir num offset).2 = none →
      (adjustHelper f name dir num offset).2 = none) := by
  constructor
  · intro dir num offset sid
    rfl
  · intro f name dir num offset ws hcc hsheet hm hf
    simp only [adjustHelper, hsheet, hm, hf, hcc]
    rfl

/-- The document with no calculation chain. -/
def fileNoChain : File :=
  { sheets := [("Sheet2", wsPlain)], pkg := [], calcChain := none }

/-- Witness for C10: with CalcChain absent, inserting a column
succeeds. -/
theorem adjustCalcChain_absent_chain_noop_witness :
    adjustCalcChain none .columns 1 1 1 = (none, none) ∧
    (adjustHelper fileNoChain "Sheet2" .columns 1 1).2 = none :=
  ⟨adjustCalcChain_absent_chain_noop.1 .columns 1 1 1,
   adjustCalcChain_absent_chain_noop.2 fileNoChain "Sheet2" .columns 1 1 wsPlain
     (by decide) (by decide) (by decide) (by decide)⟩

end Excelize
